import Mathlib

/-!
Verification of the rtp-monitor core against its specification.

The Go sources are shallowly embedded: machine integers become `Nat`/`Int`
with explicit `% 2^w` where wrap-around matters, byte slices become
`List Nat` (each element `< 256`), Go maps become association lists whose
list order stands in for Go's (unspecified) map iteration order, and
`math/big` arbitrary-precision arithmetic becomes plain `Nat`/`Int`
arithmetic.  Time instants and durations are integers of nanoseconds
(Go's `time.Time`/`time.Duration` resolution).

Layout: all definitions first, then all theorems.
-/

namespace RtpMonitor

namespace ptp

/-! ### PTP timestamps (src/internal/ptp/types.go)

`Timestamp.PTP` is the 10-byte wire value `[10]byte`: 48-bit big-endian
whole seconds followed by 32-bit big-endian nanoseconds.  The Go struct
also carries the local receipt time (`Time time.Time`), which no claim
consults, so it is omitted here. -/

structure Timestamp where
  PTP : Fin 10 → ℕ
deriving DecidableEq

/-- All stored bytes are in range (`byte` in Go guarantees this by type). -/
def WFBytes (ts : Timestamp) : Prop := ∀ i, ts.PTP i < 256

instance (ts : Timestamp) : Decidable (WFBytes ts) :=
  inferInstanceAs (Decidable (∀ i, ts.PTP i < 256))

def Timestamp.Seconds (ts : Timestamp) : ℕ :=
  ts.PTP 0 <<< 40 ||| ts.PTP 1 <<< 32 ||| ts.PTP 2 <<< 24 |||
  ts.PTP 3 <<< 16 ||| ts.PTP 4 <<< 8 ||| ts.PTP 5

def Timestamp.NanoSeconds (ts : Timestamp) : ℕ :=
  ts.PTP 6 <<< 24 ||| ts.PTP 7 <<< 16 ||| ts.PTP 8 <<< 8 ||| ts.PTP 9

/-- `func (ts Timestamp) IsZero() bool` from types.go. -/
def Timestamp.IsZero (ts : Timestamp) : Bool :=
  ts.Seconds == 0 && ts.NanoSeconds == 0

/-- `TotalNanoSeconds` uses `math/big.Int` arithmetic (no wrap-around),
so it embeds as exact `Nat` arithmetic. -/
def Timestamp.TotalNanoSeconds (ts : Timestamp) : ℕ :=
  ts.Seconds * 1000000000 + ts.NanoSeconds

/-- `InSamples` computes `totalNs * sampleRate / 1e9` in `big.Int`, then
narrows via `.Uint64()` (low 64 bits) and `uint32(...)` (low 32 bits). -/
def Timestamp.InSamples (ts : Timestamp) (sampleRate : ℕ) : ℕ :=
  ts.TotalNanoSeconds * sampleRate / 1000000000 % 2 ^ 64 % 2 ^ 32

/-- Independent spec-side big-endian byte composition (Horner form). -/
def bytesBE (l : List ℕ) : ℕ := l.foldl (fun acc b => acc * 256 + b) 0

/-- Independent spec-side total-nanosecond computation: the first six
bytes as whole seconds, times 1e9, plus the last four bytes. -/
def specTotalNanoSeconds (ts : Timestamp) : ℕ :=
  bytesBE [ts.PTP 0, ts.PTP 1, ts.PTP 2, ts.PTP 3, ts.PTP 4, ts.PTP 5] * 1000000000 +
  bytesBE [ts.PTP 6, ts.PTP 7, ts.PTP 8, ts.PTP 9]

/-- The timestamp with all 48 seconds bits and all 32 nanoseconds bits set. -/
def maxTimestamp : Timestamp := ⟨fun _ => 255⟩

/-- A timestamp encoding exactly one second (nanoseconds zero). -/
def oneSecondTimestamp : Timestamp := ⟨fun i => if i = 5 then 1 else 0⟩

/-! ### Leap seconds and the TAI-UTC offset (src/internal/ptp/types.go)

Calendar dates are converted to Unix instants with the standard
days-from-civil algorithm (what Go's `time.Date(..., time.UTC).Unix()`
yields for these in-range dates); instants and durations are integer
nanoseconds. -/

/-- Days since 1970-01-01 of the civil date y-m-d (valid for y ≥ 1). -/
def daysFromCivil (y m d : ℕ) : ℕ :=
  let y' := if m ≤ 2 then y - 1 else y
  let era := y' / 400
  let yoe := y' - era * 400
  let mp := (m + 9) % 12
  let doy := (153 * mp + 2) / 5 + d - 1
  let doe := yoe * 365 + yoe / 4 - yoe / 100 + doy
  era * 146097 + doe - 719468

/-- Unix instant, in nanoseconds, of y-m-d hh:mm:ss UTC. -/
def unixNs (y m d hh mm ss : ℕ) : ℤ :=
  ((daysFromCivil y m d : ℤ) * 86400 + hh * 3600 + mm * 60 + ss) * 1000000000

/-- `var leapSeconds = []LeapSecondEntry{...}` from types.go: each entry
is (UTC instant of insertion, cumulative TAI-UTC offset after it). -/
def leapSeconds : List (ℤ × ℤ) := [
  (unixNs 1972 6 30 23 59 59, 11 * 1000000000),
  (unixNs 1972 12 31 23 59 59, 12 * 1000000000),
  (unixNs 1973 12 31 23 59 59, 13 * 1000000000),
  (unixNs 1974 12 31 23 59 59, 14 * 1000000000),
  (unixNs 1975 12 31 23 59 59, 15 * 1000000000),
  (unixNs 1976 12 31 23 59 59, 16 * 1000000000),
  (unixNs 1977 12 31 23 59 59, 17 * 1000000000),
  (unixNs 1978 12 31 23 59 59, 18 * 1000000000),
  (unixNs 1979 12 31 23 59 59, 19 * 1000000000),
  (unixNs 1981 6 30 23 59 59, 20 * 1000000000),
  (unixNs 1982 6 30 23 59 59, 21 * 1000000000),
  (unixNs 1983 6 30 23 59 59, 22 * 1000000000),
  (unixNs 1985 6 30 23 59 59, 23 * 1000000000),
  (unixNs 1987 12 31 23 59 59, 24 * 1000000000),
  (unixNs 1989 12 31 23 59 59, 25 * 1000000000),
  (unixNs 1990 12 31 23 59 59, 26 * 1000000000),
  (unixNs 1992 6 30 23 59 59, 27 * 1000000000),
  (unixNs 1993 6 30 23 59 59, 28 * 1000000000),
  (unixNs 1994 6 30 23 59 59, 29 * 1000000000),
  (unixNs 1995 12 31 23 59 59, 30 * 1000000000),
  (unixNs 1997 6 30 23 59 59, 31 * 1000000000),
  (unixNs 1998 12 31 23 59 59, 32 * 1000000000),
  (unixNs 2005 12 31 23 59 59, 33 * 1000000000),
  (unixNs 2008 12 31 23 59 59, 34 * 1000000000),
  (unixNs 2012 6 30 23 59 59, 35 * 1000000000),
  (unixNs 2015 6 30 23 59 59, 36 * 1000000000),
  (unixNs 2016 12 31 23 59 59, 37 * 1000000000)]

def epoch1972 : ℤ := unixNs 1972 1 1 0 0 0

/-- The UTC instant of the final leap-second table entry. -/
def lastLeapDate : ℤ := unixNs 2016 12 31 23 59 59

/-- `const initialOffset = 10 * time.Second` from `TaiOffset`. -/
def initialOffset : ℤ := 10 * 1000000000

/-- The linear scan inside `TaiOffset`: walk the table in order, keeping
the offset of the latest entry at or before `t`, and stop (`break`) at
the first entry after `t`. -/
def taiOffsetLoop (t : ℤ) : ℤ → List (ℤ × ℤ) → ℤ
  | offset, [] => offset
  | offset, entry :: rest =>
    if entry.1 ≤ t then taiOffsetLoop t entry.2 rest else offset

/-- `func TaiOffset(utcTime time.Time) time.Duration` from types.go. -/
def TaiOffset (t : ℤ) : ℤ :=
  if t < epoch1972 then 0 else taiOffsetLoop t initialOffset leapSeconds

/-- `acc` is a lower bound for a chain of non-decreasing offsets. -/
def offsetsLB (acc : ℤ) : List (ℤ × ℤ) → Prop
  | [] => True
  | entry :: rest => acc ≤ entry.2 ∧ offsetsLB entry.2 rest

def offsetsLBDec (acc : ℤ) : (l : List (ℤ × ℤ)) → Decidable (offsetsLB acc l)
  | [] => .isTrue trivial
  | entry :: rest =>
    have : Decidable (offsetsLB entry.2 rest) := offsetsLBDec entry.2 rest
    inferInstanceAs (Decidable (acc ≤ entry.2 ∧ offsetsLB entry.2 rest))

instance (acc : ℤ) (l : List (ℤ × ℤ)) : Decidable (offsetsLB acc l) :=
  offsetsLBDec acc l

end ptp

namespace ring

/-! ### Ring buffer (src/internal/ring/ring.go)

`RingBuffer[T]` embeds field-for-field; the mutex is concurrency-only
and is omitted.  Go's `var zero T` is `default` via `Inhabited`. -/

structure RingBuffer (T : Type) where
  buffer : List T
  head : ℕ
  tail : ℕ
  size : ℕ
  maxSize : ℕ
  isFull : Bool

/-- `NewRingBuffer[T any](maxSize int)`.  Go panics when `maxSize <= 0`;
the theorems below assume `0 < maxSize`. -/
def NewRingBuffer (T : Type) [Inhabited T] (maxSize : ℕ) : RingBuffer T :=
  { buffer := List.replicate maxSize default
    head := 0
    tail := 0
    size := 0
    maxSize := maxSize
    isFull := false }

def RingBuffer.Push {T : Type} (rb : RingBuffer T) (item : T) : RingBuffer T :=
  let buffer := rb.buffer.set rb.tail item
  let tail := (rb.tail + 1) % rb.maxSize
  if rb.isFull then
    { rb with
      buffer := buffer
      tail := tail
      head := (rb.head + 1) % rb.maxSize }
  else
    { rb with
      buffer := buffer
      tail := tail
      size := rb.size + 1
      isFull := rb.size + 1 == rb.maxSize }

/-- `Pop` returns (item, ok, new state); the popped slot is cleared to
the zero value as in the source. -/
def RingBuffer.Pop {T : Type} [Inhabited T] (rb : RingBuffer T) :
    T × Bool × RingBuffer T :=
  if rb.size = 0 then (default, false, rb)
  else
    (rb.buffer.getD rb.head default, true,
      { rb with
        buffer := rb.buffer.set rb.head default
        head := (rb.head + 1) % rb.maxSize
        size := rb.size - 1
        isFull := false })

def RingBuffer.Size {T : Type} (rb : RingBuffer T) : ℕ := rb.size

def RingBuffer.ToSlice {T : Type} [Inhabited T] (rb : RingBuffer T) : List T :=
  if rb.size = 0 then []
  else (List.range rb.size).map fun i =>
    rb.buffer.getD ((rb.head + i) % rb.maxSize) default

/-- Popping `n` times in sequence. -/
def RingBuffer.popN {T : Type} [Inhabited T] : ℕ → RingBuffer T → RingBuffer T
  | 0, rb => rb
  | n + 1, rb => RingBuffer.popN n rb.Pop.2.2

/-- Pushing a whole list in order. -/
def pushAll {T : Type} (rb : RingBuffer T) (xs : List T) : RingBuffer T :=
  xs.foldl RingBuffer.Push rb

/-- The structural invariant maintained by the ring buffer. -/
def WF {T : Type} (rb : RingBuffer T) : Prop :=
  rb.buffer.length = rb.maxSize ∧ 0 < rb.maxSize ∧ rb.size ≤ rb.maxSize ∧
  rb.head < rb.maxSize ∧ rb.tail = (rb.head + rb.size) % rb.maxSize ∧
  (rb.isFull = true ↔ rb.size = rb.maxSize)

end ring

namespace ptp

/-! ### PTP monitor (src/internal/ptp/monitor.go)

`ClockIdentity` is the 8-byte value read from header bytes 20..27; Go
uses it as a value-equality map key, so it embeds as a byte list.  The
transmitter map becomes an association list whose order stands in for
Go's unspecified map iteration order.  The multicast wiring and mutex
are concurrency-only and are omitted; `parsePacket` is the per-datagram
state transition. -/

def messageTypeSync : ℕ := 0x0

def messageTypeFollowUp : ℕ := 0x8

structure Transmitter where
  Domain : ℕ
  LastTimestamp : Timestamp
deriving DecidableEq

/-- The monitor's transmitter map `map[ClockIdentity]*Transmitter`. -/
abbrev MonitorState : Type := List (List ℕ × Transmitter)

/-- `func (m *Monitor) parsePacket(...)` from monitor.go: minimum length
44; message type is the low nibble of byte 0; domain at byte 4; clock
identity at bytes 20..27; for Sync/Follow-Up the origin timestamp is
bytes 34..43 and is stored unconditionally (update in place when the
identity is known, insert otherwise); all other message types are
ignored.  The `Time: now` receipt field is omitted (see `Timestamp`). -/
def parsePacket (st : MonitorState) (data : List ℕ) : MonitorState :=
  if data.length < 44 then st
  else
    let messageType := data.getD 0 0 &&& 0xf
    let domainNumber := data.getD 4 0
    let clockIdentity := (List.range 8).map fun i => data.getD (20 + i) 0
    if messageType = messageTypeSync ∨ messageType = messageTypeFollowUp then
      let timeStamp : Timestamp := ⟨fun i => data.getD (34 + i.val) 0⟩
      if (st.find? fun p => p.1 == clockIdentity).isSome then
        st.map fun p =>
          if p.1 == clockIdentity then
            (p.1, { p.2 with LastTimestamp := timeStamp })
          else p
      else
        st ++ [(clockIdentity, { Domain := domainNumber, LastTimestamp := timeStamp })]
    else st

end ptp

namespace stream

/-! ### Streams and SDP parsing (src/internal/stream/stream.go)

`ParseSDP` first runs the external `holoplot/sdp` decoder on the raw
bytes; that external step is abstracted away and the embedding starts
from the decoded `sdp.Message` (origin, session connection, session
name, attributes, media sections).  `net.ParseIP` (external) is kept
abstract as the textual address.  Go's `strings.Split` is modelled for
the single-character separators used here (" " and "/"). -/

inductive DiscoveryMethod
  | SAP
  | mDNS
  | Manual
deriving DecidableEq

def ContentTypeUndefined : String := "Undefined"

def ContentTypePCM16 : String := "PCM16"

def ContentTypePCM24 : String := "PCM24"

structure StreamSource where
  SenderAddress : String
  DestinationAddress : String
  DestinationPort : ℕ
  TTL : ℕ
  FramesPerPacket : ℕ
  ClockDomain : String
  ReferenceClock : String
  MediaClock : String
  SyncTime : ℕ
deriving DecidableEq

structure StreamDescription where
  Sources : List StreamSource
  Name : String
  SampleRate : ℕ
  ChannelCount : ℕ
  ContentType : String
deriving DecidableEq

/-- A registered stream.  The raw SDP bytes and the back-pointer to the
manager are omitted (the former is opaque payload, the latter is
plumbing); `LastSeen` is an integer nanosecond instant. -/
structure Stream where
  ID : String
  Description : StreamDescription
  LastSeen : ℤ
  DiscoveryMethod : DiscoveryMethod
  DiscoverySource : String
deriving DecidableEq

/-- Decoded `sdp.Message` origin fields consumed by the code. -/
structure Origin where
  Username : String
  SessionID : ℤ
  Address : String
deriving DecidableEq

structure Connection where
  NetworkType : String
  AddressType : String
  IP : String
  TTL : ℕ
deriving DecidableEq

/-- `sdp.MediaDescription`; `MediaType` models the Go field `Type`
(`Type` is a Lean keyword). -/
structure MediaDescription where
  MediaType : String
  Port : ℕ
deriving DecidableEq

/-- A media section; `Connection = none` models a blank media-level
connection (`connection.Blank()` in the source). -/
structure Media where
  Description : MediaDescription
  Connection : Option Connection
  Attributes : List (String × String)
deriving DecidableEq

/-- `media.Attribute(key)`: the value of the first attribute with the
given name, or the empty string. -/
def Media.Attribute (m : Media) (k : String) : String :=
  ((m.Attributes.find? fun p => p.1 == k).map Prod.snd).getD ""

structure Message where
  Origin : Origin
  Name : String
  Connection : Connection
  Attributes : List (String × String)
  Medias : List Media
deriving DecidableEq

def Message.Attribute (msg : Message) (k : String) : String :=
  ((msg.Attributes.find? fun p => p.1 == k).map Prod.snd).getD ""

/-- `strings.Split` for a single-character separator. -/
def splitOnChar (sep : Char) (s : String) : List String :=
  let r := s.toList.foldl
    (fun (acc : List (List Char) × List Char) c =>
      if c = sep then (acc.1 ++ [acc.2], []) else (acc.1, acc.2 ++ [c]))
    ([], [])
  (r.1 ++ [r.2]).map fun cs => String.mk cs

/-- `strconv.Atoi`: optional sign, decimal digits, 64-bit range check;
`none` is Go's non-nil error. -/
def atoi (s : String) : Option ℤ :=
  let (neg, digits) :=
    match s.toList with
    | '-' :: rest => (true, rest)
    | '+' :: rest => (false, rest)
    | cs => (false, cs)
  if digits.isEmpty then none
  else if digits.all Char.isDigit then
    let v : ℤ := digits.foldl (fun acc c => acc * 10 + ((c.toNat : ℤ) - 48)) 0
    let v := if neg then -v else v
    if v < -(2 ^ 63) || 2 ^ 63 - 1 < v then none else some v
  else none

/-- Go `uint32(i)` conversion of a (possibly negative) integer. -/
def toUint32 (v : ℤ) : ℕ := ((v % 4294967296 + 4294967296) % 4294967296).toNat

/-- The anonymous codec-name switch inside `ParseSDP` ("L24" is the only
recognized codec; anything else maps to the undefined content type). -/
def contentTypeFromCodec (s : String) : String :=
  if s = "L24" then ContentTypePCM24 else ContentTypeUndefined

/-- RFC4566 section 5.2 identity tuple, formatted exactly as
`fmt.Sprintf("%s-%d-%s-%s-%s", ...)` in the source: origin username,
origin session id, session connection network type and address type,
origin address. -/
def uniqueID (msg : Message) : String :=
  msg.Origin.Username ++ "-" ++ toString msg.Origin.SessionID ++ "-" ++
    msg.Connection.NetworkType ++ "-" ++ msg.Connection.AddressType ++ "-" ++
    msg.Origin.Address

/-- The body of `ParseSDP`'s per-media loop: skip non-audio sections,
fall back to the session connection when the media one is blank, read
the per-media attributes, then append the source (updating the
description's codec fields from `rtpmap` on the way). -/
def parseMedia (msg : Message) (sd : StreamDescription) (media : Media) :
    StreamDescription :=
  if media.Description.MediaType ≠ "audio" then sd
  else
    let connection := media.Connection.getD msg.Connection
    let source0 : StreamSource :=
      { SenderAddress := msg.Origin.Address
        DestinationAddress := connection.IP
        DestinationPort := media.Description.Port % 65536
        TTL := connection.TTL % 256
        FramesPerPacket := 0
        ClockDomain := media.Attribute "clock-domain"
        ReferenceClock := media.Attribute "ts-refclk"
        MediaClock := ""
        SyncTime := 0 }
    let source1 := { source0 with
      FramesPerPacket := toUint32 ((atoi (media.Attribute "framecount")).getD 0) }
    let s := media.Attribute "source-filter"
    let a := splitOnChar ' ' s
    let source2 :=
      if a.length = 6 then { source1 with SenderAddress := a.getD 5 "" }
      else source1
    let source3 :=
      if source2.ClockDomain = "" then
        { source2 with ClockDomain := msg.Attribute "clock-domain" }
      else source2
    let source4 :=
      if source3.ReferenceClock = "" then
        { source3 with ReferenceClock := msg.Attribute "ts-refclk" }
      else source3
    -- quirk kept from the source: the `mediaclk` assignment is guarded
    -- by the length of the source-filter string `s`, not of `mediaclk`
    let mediaclk := media.Attribute "mediaclk"
    let source5 :=
      if s ≠ "" then
        let withClk := { source4 with MediaClock := mediaclk }
        match atoi (media.Attribute "sync-time") with
        | some i => { withClk with SyncTime := toUint32 i }
        | none => withClk
      else source4
    let rtp := splitOnChar ' ' (media.Attribute "rtpmap")
    let sd1 :=
      if 1 < rtp.length then
        let b := splitOnChar '/' (rtp.getD 1 "")
        if b.length = 3 then
          let sdA := { sd with ContentType := contentTypeFromCodec (b.getD 0 "") }
          let sdB :=
            match atoi (b.getD 1 "") with
            | some sampleRate => { sdA with SampleRate := toUint32 sampleRate }
            | none => sdA
          match atoi (b.getD 2 "") with
          | some channelCount => { sdB with ChannelCount := toUint32 channelCount }
          | none => sdB
        else sd
      else sd
    { sd1 with Sources := sd1.Sources ++ [source5] }

/-- `func ParseSDP(b []byte) (*StreamDescription, string, error)`, from
the decoded message on: the description starts zero-valued apart from
the session name, each audio media appends one source, and the unique
identity is the RFC4566 origin tuple. -/
def ParseSDP (msg : Message) : StreamDescription × String :=
  let sd0 : StreamDescription :=
    { Sources := []
      Name := msg.Name
      SampleRate := 0
      ChannelCount := 0
      ContentType := "" }
  (msg.Medias.foldl (parseMedia msg) sd0, uniqueID msg)

/-- `func (s *Stream) IsStale(maxAge time.Duration) bool`:
`time.Since(LastSeen) > maxAge` at instant `now`. -/
def IsStale (s : Stream) (now maxAge : ℤ) : Bool := decide (now - s.LastSeen > maxAge)

/-! ### Stream registry (src/internal/stream/manager.go)

The manager's `streams map[string]*Stream` becomes an association list
whose order stands in for Go's unspecified map iteration order; map
assignment replaces the entry with the same key.  Callbacks, multicast
plumbing, the mDNS side index and the mutex are omitted. -/

/-- `const sapTimeout = 10 * time.Minute`, in nanoseconds. -/
def sapTimeout : ℤ := 600 * 1000000000

structure Manager where
  streams : List (String × Stream)
deriving DecidableEq

/-- Go map assignment `m.streams[id] = stream`, observationally: replace
the entry with this key if present, otherwise add one. -/
def mapSet (l : List (String × Stream)) (k : String) (v : Stream) :
    List (String × Stream) :=
  if l.any fun p => p.1 == k then
    l.map fun p => if p.1 == k then (k, v) else p
  else l ++ [(k, v)]

/-- `func (m *Manager) AddStream(stream *Stream)` (sans callback). -/
def AddStream (m : Manager) (s : Stream) : Manager :=
  { streams := mapSet m.streams s.ID s }

/-- `func (m *Manager) AddStreamFromSDP(...)`: parse, build the Stream
with `LastSeen = now`, insert by identity; returns the new state and the
stream. -/
def AddStreamFromSDP (m : Manager) (msg : Message) (dm : DiscoveryMethod)
    (interfaceName : String) (now : ℤ) : Manager × Stream :=
  let (description, uid) := ParseSDP msg
  let stream : Stream :=
    { ID := uid
      Description := description
      LastSeen := now
      DiscoveryMethod := dm
      DiscoverySource := interfaceName }
  (AddStream m stream, stream)

/-- `func (m *Manager) GetStream(id string) (*Stream, bool)`. -/
def GetStream (m : Manager) (id : String) : Option Stream :=
  (m.streams.find? fun p => p.1 == id).map Prod.snd

/-- `func (m *Manager) GetAllStreams() []*Stream`: copies the map values
out in iteration order and returns them WITHOUT sorting (only the
publish path `update()` sorts). -/
def GetAllStreams (m : Manager) : List Stream := m.streams.map Prod.snd

/-- Go string comparison `a < b` (byte-wise lexicographic), as used by
the name comparator in `update()`. -/
def goBytesLess : List Char → List Char → Bool
  | [], [] => false
  | [], _ :: _ => true
  | _ :: _, [] => false
  | a :: as, b :: bs =>
    if a.toNat < b.toNat then true
    else if b.toNat < a.toNat then false
    else goBytesLess as bs

def goStringLess (a b : String) : Bool := goBytesLess a.toList b.toList

/-- `func (m *Manager) cleanupStaleStreams()`: delete every entry whose
discovery method is SAP and that is stale w.r.t. `sapTimeout`. -/
def cleanupStaleStreams (now : ℤ) : List (String × Stream) → List (String × Stream)
  | [] => []
  | p :: rest =>
    if p.2.DiscoveryMethod = DiscoveryMethod.SAP ∧ IsStale p.2 now sapTimeout = true then
      cleanupStaleStreams now rest
    else p :: cleanupStaleStreams now rest

def Manager.cleanupStaleStreams (m : Manager) (now : ℤ) : Manager :=
  { streams := stream.cleanupStaleStreams now m.streams }

/-! ### Receivers (src/internal/stream/manager.go, receiver file)

`NewRTPReceiver` and `NewRTCPReceiver` run the same registration loop
over the stream's sources: `AddConsumer` on the source's destination
address (RTCP: port + 1); on success the consumer handle is appended,
on the first failure the error is returned immediately — without
removing the consumers already registered.  `join i` abstracts the
transport's `AddConsumer` for source index `i` (the payload callbacks
are irrelevant to registration).  The result is (constructor result,
consumers still registered with the transport when the call returns). -/

def buildConsumers (join : ℕ → Except String ℕ) :
    List ℕ → List ℕ → Except String (List ℕ) × List ℕ
  | [], acc => (Except.ok acc, acc)
  | i :: rest, acc =>
    match join i with
    | Except.ok c => buildConsumers join rest (acc ++ [c])
    | Except.error e => (Except.error e, acc)

def NewRTPReceiver (sources : List StreamSource)
    (join : ℕ → Except String ℕ) : Except String (List ℕ) × List ℕ :=
  buildConsumers join (List.range sources.length) []

/-! ### Sample extraction (src/internal/stream/manager.go, receiver file) -/

/-- Outcome of `ExtractSamples`: a Go runtime panic (integer division by
zero, or index out of range), the typed `ErrUnsupportedContentType`, or
the decoded sample frames. -/
inductive ExtractResult
  | goPanic : ExtractResult
  | errUnsupportedContentType : ExtractResult
  | ok : List (List ℤ) → ExtractResult
deriving DecidableEq

/-- Go `Sample(value)`: reinterpret a `uint32` as a signed `int32`. -/
def toInt32 (v : ℕ) : ℤ := if v < 2 ^ 31 then (v : ℤ) else (v : ℤ) - 2 ^ 32

/-- One 24-bit sample: `uint32(p[i])<<24 | uint32(p[i+1])<<16 |
uint32(p[i+2])<<8`, reinterpreted as `int32`; `none` is an index out of
range (a Go panic). -/
def sample24 (payload : List ℕ) (i : ℕ) : Option ℤ :=
  match payload[i]?, payload[i + 1]?, payload[i + 2]? with
  | some b0, some b1, some b2 => some (toInt32 (b0 <<< 24 ||| b1 <<< 16 ||| b2 <<< 8))
  | _, _, _ => none

/-- The inner per-channel loop of `ExtractSamples`: read `channels`
samples starting at byte index `i`, returning the frame and the next
index. -/
def extractFrame (payload : List ℕ) : ℕ → ℕ → Option (List ℤ × ℕ)
  | i, 0 => some ([], i)
  | i, ch + 1 =>
    match sample24 payload i with
    | some v =>
      match extractFrame payload (i + 3) ch with
      | some (f, i') => some (v :: f, i')
      | none => none
    | none => none

/-- The outer frame loop of `ExtractSamples`. -/
def extractFrames (payload : List ℕ) (channels : ℕ) :
    ℕ → ℕ → Option (List (List ℤ))
  | 0, _ => some []
  | n + 1, i =>
    match extractFrame payload i channels with
    | some (f, i') =>
      match extractFrames payload channels n i' with
      | some fs => some (f :: fs)
      | none => none
    | none => none

/-- `func (r *RTPReceiver) ExtractSamples(packet *rtp.Packet)`:
PCM24 means 3 bytes per sample; `bytesPerFrame = bytesPerSample *
channels`; `numFrames = len(payload) / bytesPerFrame` — in Go an integer
division by zero panics, hence the explicit `goPanic` branch. -/
def ExtractSamples (desc : StreamDescription) (payload : List ℕ) :
    ExtractResult :=
  if desc.ContentType = ContentTypePCM24 then
    let channels := desc.ChannelCount
    let bytesPerFrame := 3 * channels
    if bytesPerFrame = 0 then ExtractResult.goPanic
    else
      let numFrames := payload.length / bytesPerFrame
      match extractFrames payload channels numFrames 0 with
      | some frames => ExtractResult.ok frames
      | none => ExtractResult.goPanic
  else ExtractResult.errUnsupportedContentType

/-- Independent spec-side decoded sample at byte offset `k`: big-endian
24-bit value in the top three bytes of a 32-bit word, as a signed
int32. -/
def specSample (payload : List ℕ) (k : ℕ) : ℤ :=
  toInt32 (payload.getD k 0 * 2 ^ 24 + payload.getD (k + 1) 0 * 2 ^ 16 +
    payload.getD (k + 2) 0 * 2 ^ 8)

/-- Independent spec-side frame list: `len(payload) / (3*C)` frames of
`C` samples, frame `j` channel `ch` decoded at byte offset
`3*(j*C+ch)`. -/
def specFrames (payload : List ℕ) (C : ℕ) : List (List ℤ) :=
  (List.range (payload.length / (3 * C))).map fun j =>
    (List.range C).map fun ch => specSample payload (3 * (j * C + ch))

/-! ### Concrete fixtures used by witnesses and counterexamples -/

/-- An SDP message whose `rtpmap` names the L24 codec but has a
malformed channel count, so the parser yields PCM24 with
`ChannelCount = 0`. -/
def msgNoChannel : Message :=
  { Origin := { Username := "u", SessionID := 1, Address := "10.0.0.1" }
    Name := "bad-rtpmap"
    Connection := { NetworkType := "IN", AddressType := "IP4", IP := "239.0.0.1", TTL := 32 }
    Attributes := []
    Medias := [{ Description := { MediaType := "audio", Port := 5004 }
                 Connection := none
                 Attributes := [("rtpmap", "98 L24/48000/x")] }] }

/-- First announcement of a session: origin tuple (u, 77, IN, IP4,
192.0.2.1), primary transport 239.1.1.1:5004. -/
def msgPrimary : Message :=
  { Origin := { Username := "u", SessionID := 77, Address := "192.0.2.1" }
    Name := "dup-session"
    Connection := { NetworkType := "IN", AddressType := "IP4", IP := "239.1.1.1", TTL := 15 }
    Attributes := []
    Medias := [{ Description := { MediaType := "audio", Port := 5004 }
                 Connection := none
                 Attributes := [("rtpmap", "98 L24/48000/2")] }] }

/-- Same origin tuple as `msgPrimary` but a different transport address
and port (redundant leg). -/
def msgSecondary : Message :=
  { Origin := { Username := "u", SessionID := 77, Address := "192.0.2.1" }
    Name := "dup-session"
    Connection := { NetworkType := "IN", AddressType := "IP4", IP := "239.1.1.1", TTL := 15 }
    Attributes := []
    Medias := [{ Description := { MediaType := "audio", Port := 5006 }
                 Connection := some { NetworkType := "IN", AddressType := "IP4", IP := "239.1.1.2", TTL := 15 }
                 Attributes := [("rtpmap", "98 L24/48000/2")] }] }

/-- A session named "B" (distinct identity from `msgA`). -/
def msgB : Message :=
  { Origin := { Username := "u", SessionID := 2, Address := "192.0.2.1" }
    Name := "B"
    Connection := { NetworkType := "IN", AddressType := "IP4", IP := "239.1.1.1", TTL := 15 }
    Attributes := []
    Medias := [] }

/-- A session named "A" (distinct identity from `msgB`). -/
def msgA : Message :=
  { Origin := { Username := "u", SessionID := 3, Address := "192.0.2.1" }
    Name := "A"
    Connection := { NetworkType := "IN", AddressType := "IP4", IP := "239.1.1.1", TTL := 15 }
    Attributes := []
    Medias := [] }

/-- A 2-channel PCM24 stream description. -/
def desc6 : StreamDescription :=
  { Sources := []
    Name := "pcm"
    SampleRate := 48000
    ChannelCount := 2
    ContentType := "PCM24" }

/-- A PCM24 stream description with channel count 0 (as the parser can
produce, see `msgNoChannel`). -/
def desc0 : StreamDescription :=
  { Sources := []
    Name := "pcm0"
    SampleRate := 48000
    ChannelCount := 0
    ContentType := "PCM24" }

def descEmpty : StreamDescription :=
  { Sources := []
    Name := "s"
    SampleRate := 0
    ChannelCount := 0
    ContentType := "" }

def srcA : StreamSource :=
  { SenderAddress := "192.0.2.1"
    DestinationAddress := "239.1.1.1"
    DestinationPort := 5004
    TTL := 15
    FramesPerPacket := 0
    ClockDomain := ""
    ReferenceClock := ""
    MediaClock := ""
    SyncTime := 0 }

/-- A transport whose `AddConsumer` succeeds for source 0 (handle 100)
and fails for every later source. -/
def joinFailSecond : ℕ → Except String ℕ :=
  fun i => if i = 0 then Except.ok 100 else Except.error "join failed"

/-- An announcement-discovered stream last seen at instant 0. -/
def streamSAP : Stream :=
  { ID := "id-sap"
    Description := descEmpty
    LastSeen := 0
    DiscoveryMethod := DiscoveryMethod.SAP
    DiscoverySource := "eth0" }

/-- A manually loaded stream last seen at instant 0. -/
def streamManual : Stream :=
  { ID := "id-man"
    Description := descEmpty
    LastSeen := 0
    DiscoveryMethod := DiscoveryMethod.Manual
    DiscoverySource := "a.sdp" }

def managerC5 : Manager :=
  ⟨[("id-sap", streamSAP), ("id-man", streamManual)]⟩

end stream

/-! ## Theorems -/

/-! ### Bit-manipulation helpers

Go composes multi-byte big-endian values with `|` over disjoint shifted
bytes; these lemmas convert such compositions to additions. -/

theorem lor_add_of_dvd_of_lt {a b k : ℕ} (hdvd : 2 ^ k ∣ a) (hb : b < 2 ^ k) :
    a ||| b = a + b := by
  obtain ⟨c, rfl⟩ := hdvd
  exact (Nat.mul_add_lt_is_or hb c).symm

namespace ptp

theorem Seconds_eq_sum (ts : Timestamp) (h : WFBytes ts) :
    ts.Seconds = ts.PTP 0 * 2 ^ 40 + ts.PTP 1 * 2 ^ 32 + ts.PTP 2 * 2 ^ 24 +
      ts.PTP 3 * 2 ^ 16 + ts.PTP 4 * 2 ^ 8 + ts.PTP 5 := by
  have h0 := h 0; have h1 := h 1; have h2 := h 2
  have h3 := h 3; have h4 := h 4; have h5 := h 5
  unfold Timestamp.Seconds
  simp only [Nat.shiftLeft_eq]
  rw [lor_add_of_dvd_of_lt ⟨ts.PTP 0, by ring⟩
        (show ts.PTP 1 * 2 ^ 32 < 2 ^ 40 by nlinarith),
      lor_add_of_dvd_of_lt ⟨ts.PTP 0 * 2 ^ 8 + ts.PTP 1, by ring⟩
        (show ts.PTP 2 * 2 ^ 24 < 2 ^ 32 by nlinarith),
      lor_add_of_dvd_of_lt
        ⟨ts.PTP 0 * 2 ^ 16 + ts.PTP 1 * 2 ^ 8 + ts.PTP 2, by ring⟩
        (show ts.PTP 3 * 2 ^ 16 < 2 ^ 24 by nlinarith),
      lor_add_of_dvd_of_lt
        ⟨ts.PTP 0 * 2 ^ 24 + ts.PTP 1 * 2 ^ 16 + ts.PTP 2 * 2 ^ 8 +
          ts.PTP 3, by ring⟩
        (show ts.PTP 4 * 2 ^ 8 < 2 ^ 16 by nlinarith),
      lor_add_of_dvd_of_lt
        ⟨ts.PTP 0 * 2 ^ 32 + ts.PTP 1 * 2 ^ 24 + ts.PTP 2 * 2 ^ 16 +
          ts.PTP 3 * 2 ^ 8 + ts.PTP 4, by ring⟩
        (show ts.PTP 5 < 2 ^ 8 from h5)]

theorem NanoSeconds_eq_sum (ts : Timestamp) (h : WFBytes ts) :
    ts.NanoSeconds = ts.PTP 6 * 2 ^ 24 + ts.PTP 7 * 2 ^ 16 + ts.PTP 8 * 2 ^ 8 +
      ts.PTP 9 := by
  have h6 := h 6; have h7 := h 7; have h8 := h 8; have h9 := h 9
  unfold Timestamp.NanoSeconds
  simp only [Nat.shiftLeft_eq]
  rw [lor_add_of_dvd_of_lt ⟨ts.PTP 6, by ring⟩
        (show ts.PTP 7 * 2 ^ 16 < 2 ^ 24 by nlinarith),
      lor_add_of_dvd_of_lt ⟨ts.PTP 6 * 2 ^ 8 + ts.PTP 7, by ring⟩
        (show ts.PTP 8 * 2 ^ 8 < 2 ^ 16 by nlinarith),
      lor_add_of_dvd_of_lt
        ⟨ts.PTP 6 * 2 ^ 16 + ts.PTP 7 * 2 ^ 8 + ts.PTP 8, by ring⟩
        (show ts.PTP 9 < 2 ^ 8 from h9)]

theorem taiOffsetLoop_ge (t : ℤ) :
    ∀ (l : List (ℤ × ℤ)) (acc : ℤ), offsetsLB acc l → acc ≤ taiOffsetLoop t acc l
  | [], acc, _ => le_refl acc
  | entry :: rest, acc, h => by
    unfold taiOffsetLoop
    split
    · exact le_trans h.1 (taiOffsetLoop_ge t rest entry.2 h.2)
    · exact le_refl acc

theorem taiOffsetLoop_mono {t1 t2 : ℤ} (ht : t1 ≤ t2) :
    ∀ (l : List (ℤ × ℤ)) (acc : ℤ), offsetsLB acc l →
      taiOffsetLoop t1 acc l ≤ taiOffsetLoop t2 acc l
  | [], _, _ => le_refl _
  | entry :: rest, acc, h => by
    unfold taiOffsetLoop
    by_cases h1 : entry.1 ≤ t1
    · rw [if_pos h1, if_pos (le_trans h1 ht)]
      exact taiOffsetLoop_mono ht rest entry.2 h.2
    · rw [if_neg h1]
      by_cases h2 : entry.1 ≤ t2
      · rw [if_pos h2]
        exact le_trans h.1 (taiOffsetLoop_ge t2 rest entry.2 h.2)
      · rw [if_neg h2]

theorem taiOffsetLoop_all_le (t : ℤ) :
    ∀ (l : List (ℤ × ℤ)) (acc : ℤ), (∀ e ∈ l, e.1 ≤ t) →
      taiOffsetLoop t acc l = (l.getLast?.map Prod.snd).getD acc
  | [], acc, _ => rfl
  | entry :: rest, acc, h => by
    unfold taiOffsetLoop
    rw [if_pos (h entry (List.mem_cons_self _ _))]
    rw [taiOffsetLoop_all_le t rest entry.2 (fun e he => h e (List.mem_cons_of_mem _ he))]
    cases rest with
    | nil => rfl
    | cons r rs => rw [List.getLast?_cons_cons]; rfl

end ptp

namespace ring

theorem getD_set_self {T : Type} (l : List T) (i : ℕ) (hi : i < l.length)
    (a d : T) : (l.set i a).getD i d = a := by
  rw [List.getD_eq_getElem?_getD, List.getElem?_set_self hi]
  rfl

theorem getD_set_ne {T : Type} (l : List T) {i j : ℕ} (hij : i ≠ j) (a d : T) :
    (l.set i a).getD j d = l.getD j d := by
  rw [List.getD_eq_getElem?_getD, List.getElem?_set_ne hij,
    ← List.getD_eq_getElem?_getD]

theorem toSlice_eq_map {T : Type} [Inhabited T] (rb : RingBuffer T) :
    rb.ToSlice = (List.range rb.size).map
      (fun i => rb.buffer.getD ((rb.head + i) % rb.maxSize) default) := by
  unfold RingBuffer.ToSlice
  split
  · next h => rw [h]; rfl
  · rfl

theorem Push_eq_full {T : Type} (rb : RingBuffer T) (x : T)
    (hf : rb.isFull = true) :
    rb.Push x = { rb with
      buffer := rb.buffer.set rb.tail x
      tail := (rb.tail + 1) % rb.maxSize
      head := (rb.head + 1) % rb.maxSize } := by
  unfold RingBuffer.Push
  rw [if_pos hf]

theorem Push_eq_notfull {T : Type} (rb : RingBuffer T) (x : T)
    (hf : rb.isFull = false) :
    rb.Push x = { rb with
      buffer := rb.buffer.set rb.tail x
      tail := (rb.tail + 1) % rb.maxSize
      size := rb.size + 1
      isFull := rb.size + 1 == rb.maxSize } := by
  unfold RingBuffer.Push
  rw [if_neg (by simp [hf])]

theorem Push_maxSize {T : Type} (rb : RingBuffer T) (x : T) :
    (rb.Push x).maxSize = rb.maxSize := by
  unfold RingBuffer.Push
  split <;> rfl

theorem Push_size {T : Type} (rb : RingBuffer T) (x : T) (hwf : WF rb) :
    (rb.Push x).size = if rb.size = rb.maxSize then rb.maxSize
      else rb.size + 1 := by
  obtain ⟨-, -, -, -, -, hfull⟩ := hwf
  by_cases hf : rb.isFull = true
  · rw [Push_eq_full rb x hf]
    have hs := hfull.mp hf
    simp [hs]
  · have hb : rb.isFull = false := by revert hf; cases rb.isFull <;> simp
    rw [Push_eq_notfull rb x hb]
    have hs : rb.size ≠ rb.maxSize := fun h => hf (hfull.mpr h)
    simp [hs]

theorem WF_Push {T : Type} (rb : RingBuffer T) (x : T) (hwf : WF rb) :
    WF (rb.Push x) := by
  obtain ⟨hlen, hM, hsM, hh, ht, hfull⟩ := hwf
  by_cases hf : rb.isFull = true
  · rw [Push_eq_full rb x hf]
    have hs := hfull.mp hf
    refine ⟨by simpa using hlen, hM, hsM, Nat.mod_lt _ hM, ?_, ?_⟩
    · show (rb.tail + 1) % rb.maxSize = ((rb.head + 1) % rb.maxSize + rb.size) % rb.maxSize
      rw [ht, Nat.mod_add_mod, Nat.mod_add_mod, Nat.add_right_comm]
    · show rb.isFull = true ↔ rb.size = rb.maxSize
      simp [hf, hs]
  · have hb : rb.isFull = false := by revert hf; cases rb.isFull <;> simp
    have hs : rb.size ≠ rb.maxSize := fun h => hf (hfull.mpr h)
    rw [Push_eq_notfull rb x hb]
    refine ⟨by simpa using hlen, hM, ?_, hh, ?_, ?_⟩
    · show rb.size + 1 ≤ rb.maxSize
      omega
    · show (rb.tail + 1) % rb.maxSize = (rb.head + (rb.size + 1)) % rb.maxSize
      rw [ht, Nat.mod_add_mod, Nat.add_assoc]
    · show (rb.size + 1 == rb.maxSize) = true ↔ rb.size + 1 = rb.maxSize
      simp

theorem ToSlice_Push {T : Type} [Inhabited T] (rb : RingBuffer T) (x : T)
    (hwf : WF rb) :
    (rb.Push x).ToSlice = if rb.size = rb.maxSize then rb.ToSlice.drop 1 ++ [x]
      else rb.ToSlice ++ [x] := by
  obtain ⟨hlen, hM, hsM, hh, ht, hfull⟩ := hwf
  have htaillt : rb.tail < rb.buffer.length := by
    rw [hlen, ht]; exact Nat.mod_lt _ hM
  by_cases hcase : rb.size = rb.maxSize
  · have hf : rb.isFull = true := hfull.mpr hcase
    have htail : rb.tail = rb.head := by
      rw [ht, hcase, Nat.add_mod_right, Nat.mod_eq_of_lt hh]
    rw [if_pos hcase, Push_eq_full rb x hf, toSlice_eq_map, toSlice_eq_map]
    dsimp only
    obtain ⟨M', hM'⟩ : ∃ M', rb.maxSize = M' + 1 := ⟨rb.maxSize - 1, by omega⟩
    rw [hcase, hM']
    conv_rhs => rw [List.range_succ_eq_map]
    rw [List.map_cons, List.drop_succ_cons, List.drop_zero, List.map_map,
      List.range_succ, List.map_append]
    congr 1
    · apply List.map_congr_left
      intro i hi
      have hi' : i < M' := List.mem_range.mp hi
      rw [Nat.mod_add_mod, ← hM']
      have hne : rb.tail ≠ (rb.head + 1 + i) % rb.maxSize := by
        rw [htail]
        intro hEq
        have hmod : (rb.head + 0) % rb.maxSize = (rb.head + (1 + i)) % rb.maxSize := by
          rw [Nat.add_zero, Nat.mod_eq_of_lt hh]
          rw [hEq]; congr 1; omega
        have h2 : (0 : ℕ) ≡ 1 + i [MOD rb.maxSize] :=
          Nat.ModEq.add_left_cancel' rb.head hmod
        have h3 : rb.maxSize ∣ 1 + i := (Nat.modEq_zero_iff_dvd.mp h2.symm)
        have h4 : rb.maxSize ≤ 1 + i := Nat.le_of_dvd (by omega) h3
        omega
      rw [getD_set_ne _ hne]
      simp only [Function.comp_apply]
      rw [show rb.head + 1 + i = rb.head + Nat.succ i by omega]
    · simp only [List.map_cons, List.map_nil]
      congr 1
      rw [Nat.mod_add_mod, ← hM']
      have hidx : (rb.head + 1 + M') % rb.maxSize = rb.tail := by
        rw [htail, hM']
        have he : rb.head + 1 + M' = rb.head + (M' + 1) := by omega
        rw [he, Nat.add_mod_right]
        exact Nat.mod_eq_of_lt (by omega)
      rw [hidx, getD_set_self _ _ htaillt]
  · have hf : rb.isFull = false := by
      cases hb : rb.isFull
      · rfl
      · exact absurd (hfull.mp hb) hcase
    have hslt : rb.size < rb.maxSize := lt_of_le_of_ne hsM hcase
    rw [if_neg hcase, Push_eq_notfull rb x hf, toSlice_eq_map, toSlice_eq_map]
    dsimp only
    rw [List.range_succ, List.map_append]
    congr 1
    · apply List.map_congr_left
      intro i hi
      have hi' : i < rb.size := List.mem_range.mp hi
      have hne : rb.tail ≠ (rb.head + i) % rb.maxSize := by
        rw [ht]
        intro hEq
        have h2 : rb.size ≡ i [MOD rb.maxSize] :=
          Nat.ModEq.add_left_cancel' rb.head hEq
        have h3 : rb.size % rb.maxSize = i % rb.maxSize := h2
        rw [Nat.mod_eq_of_lt hslt, Nat.mod_eq_of_lt (by omega)] at h3
        omega
      rw [getD_set_ne _ hne]
    · dsimp only [List.map_cons, List.map_nil]
      congr 1
      rw [← ht]
      exact getD_set_self _ _ htaillt _ _

theorem Pop_size {T : Type} [Inhabited T] (rb : RingBuffer T) :
    rb.Pop.2.2.size = rb.size - 1 := by
  unfold RingBuffer.Pop
  split
  · next h => simp [h]
  · rfl

theorem popN_size {T : Type} [Inhabited T] :
    ∀ (n : ℕ) (rb : RingBuffer T), (RingBuffer.popN n rb).size = rb.size - n
  | 0, rb => by simp [RingBuffer.popN]
  | n + 1, rb => by
    unfold RingBuffer.popN
    rw [popN_size n _, Pop_size]
    omega

theorem Pop_false_iff {T : Type} [Inhabited T] (rb : RingBuffer T) :
    (rb.Pop.2.1 = false) ↔ rb.size = 0 := by
  unfold RingBuffer.Pop
  split
  · next h => simp [h]
  · next h => simp [h]

theorem pushAll_spec {T : Type} [Inhabited T] (N : ℕ) (hN : 0 < N)
    (xs : List T) :
    WF (pushAll (NewRingBuffer T N) xs) ∧
    (pushAll (NewRingBuffer T N) xs).maxSize = N ∧
    (pushAll (NewRingBuffer T N) xs).size = min xs.length N ∧
    (pushAll (NewRingBuffer T N) xs).ToSlice = xs.drop (xs.length - N) := by
  induction xs using List.reverseRecOn with
  | nil =>
    refine ⟨⟨by simp [NewRingBuffer, pushAll], hN, by simp [NewRingBuffer, pushAll],
      by simpa [NewRingBuffer, pushAll] using hN, by simp [NewRingBuffer, pushAll],
      by simp [NewRingBuffer, pushAll]; omega⟩,
      rfl, by simp [NewRingBuffer, pushAll], ?_⟩
    simp [NewRingBuffer, pushAll, RingBuffer.ToSlice]
  | append_singleton xs x ih =>
    obtain ⟨hwf, hmax, hsize, hslice⟩ := ih
    have hfold : pushAll (NewRingBuffer T N) (xs ++ [x]) =
        (pushAll (NewRingBuffer T N) xs).Push x := by
      unfold pushAll
      rw [List.foldl_append]
      rfl
    rw [hfold]
    refine ⟨WF_Push _ _ hwf, by rw [Push_maxSize, hmax], ?_, ?_⟩
    · rw [Push_size _ _ hwf, hsize, hmax]
      simp only [List.length_append, List.length_cons, List.length_nil]
      split <;> omega
    · rw [ToSlice_Push _ _ hwf, hsize, hmax, hslice]
      by_cases hge : N ≤ xs.length
      · rw [if_pos (by omega : min xs.length N = N)]
        rw [List.drop_drop]
        have hlen1 : (xs ++ [x]).length = xs.length + 1 := by simp
        rw [hlen1, List.drop_append_of_le_length (by omega)]
        congr 2
        omega
      · rw [if_neg (by omega)]
        have hlen1 : (xs ++ [x]).length = xs.length + 1 := by simp
        rw [hlen1]
        have h0 : xs.length - N = 0 := by omega
        have h1 : xs.length + 1 - N = 0 := by omega
        rw [h0, h1, List.drop_zero, List.drop_zero]

end ring

/-- C9: For a ring buffer of capacity N ≥ 1: pushing any M ≥ N elements
into a fresh buffer leaves Size = N and ToSlice equal to the last N
pushed values in push order; Push never grows the size beyond the
capacity; popping Size times from any state empties the buffer; and Pop
reports failure exactly on an empty buffer. -/
theorem c9_ring_buffer (T : Type) [Inhabited T] :
    (∀ N : ℕ, 0 < N → ∀ xs : List T, N ≤ xs.length →
      (ring.pushAll (ring.NewRingBuffer T N) xs).Size = N ∧
      (ring.pushAll (ring.NewRingBuffer T N) xs).ToSlice =
        xs.drop (xs.length - N)) ∧
    (∀ rb : ring.RingBuffer T, ring.WF rb → ∀ x : T,
      (rb.Push x).Size ≤ rb.maxSize) ∧
    (∀ rb : ring.RingBuffer T,
      (ring.RingBuffer.popN rb.Size rb).Size = 0) ∧
    (∀ rb : ring.RingBuffer T, (rb.Pop.2.1 = false) ↔ rb.Size = 0) := by
  refine ⟨?_, ?_, ?_, ?_⟩
  · intro N hN xs hxs
    obtain ⟨-, -, hsize, hslice⟩ := ring.pushAll_spec N hN xs
    exact ⟨by rw [ring.RingBuffer.Size, hsize]; omega, hslice⟩
  · intro rb hwf x
    have hsM : rb.size ≤ rb.maxSize := hwf.2.2.1
    rw [ring.RingBuffer.Size, ring.Push_size _ _ hwf]
    split <;> omega
  · intro rb
    rw [ring.RingBuffer.Size, ring.RingBuffer.Size, ring.popN_size]
    omega
  · intro rb
    exact ring.Pop_false_iff rb

/-- Witness for C9: capacity 2, pushing [1, 2, 3]. -/
theorem c9_witness :
    (ring.pushAll (ring.NewRingBuffer ℕ 2) [1, 2, 3]).Size = 2 ∧
    (ring.pushAll (ring.NewRingBuffer ℕ 2) [1, 2, 3]).ToSlice = [2, 3] := by
  obtain ⟨h1, h2⟩ := (c9_ring_buffer ℕ).1 2 (by decide) [1, 2, 3] (by decide)
  refine ⟨h1, ?_⟩
  rw [h2]
  rfl

/-- C7: For every timestamp (bytes in range), including the maximum
representable one, `TotalNanoSeconds` equals the independently computed
exact value `Seconds * 1e9 + NanoSeconds` over unbounded integers (no
overflow or wraparound); at the all-ones timestamp it equals the exact
decimal 281474976710659294967295; and for a timestamp encoding exactly
one second, `InSamples R = R` for every 32-bit sample rate `R`. -/
theorem c7_total_nanoseconds_exact :
    (∀ ts : ptp.Timestamp, ptp.WFBytes ts →
      ts.TotalNanoSeconds = ptp.specTotalNanoSeconds ts) ∧
    ptp.maxTimestamp.TotalNanoSeconds = 281474976710659294967295 ∧
    (∀ R : ℕ, R < 2 ^ 32 → ptp.oneSecondTimestamp.InSamples R = R) := by
  refine ⟨fun ts h => ?_, by decide, fun R hR => ?_⟩
  · unfold ptp.Timestamp.TotalNanoSeconds ptp.specTotalNanoSeconds ptp.bytesBE
    rw [ptp.Seconds_eq_sum ts h, ptp.NanoSeconds_eq_sum ts h]
    simp only [List.foldl]
    ring
  · have h1 : ptp.oneSecondTimestamp.TotalNanoSeconds = 1000000000 := by decide
    unfold ptp.Timestamp.InSamples
    rw [h1, Nat.mul_div_cancel_left R (show 0 < 1000000000 by norm_num)]
    omega

/-- Witness for C7 at sample rate 48000. -/
theorem c7_witness :
    ptp.WFBytes ptp.oneSecondTimestamp ∧
      ptp.oneSecondTimestamp.InSamples 48000 = 48000 :=
  ⟨by decide, c7_total_nanoseconds_exact.2.2 48000 (by decide)⟩

/-- C8: `TaiOffset` is a monotonically non-decreasing step function of
its UTC time argument; it is 0 for every instant before 1972-01-01 UTC;
and at or after the final table entry it equals 10 seconds plus one
second per table entry, i.e. 37 seconds (the table has 27 entries). -/
theorem c8_tai_offset_step_function :
    (∀ t1 t2 : ℤ, t1 ≤ t2 → ptp.TaiOffset t1 ≤ ptp.TaiOffset t2) ∧
    (∀ t : ℤ, t < ptp.epoch1972 → ptp.TaiOffset t = 0) ∧
    (∀ t : ℤ, ptp.lastLeapDate ≤ t →
      ptp.TaiOffset t = (10 + (ptp.leapSeconds.length : ℤ)) * 1000000000) ∧
    ptp.leapSeconds.length = 27 := by
  have hchain : ptp.offsetsLB ptp.initialOffset ptp.leapSeconds := by decide
  refine ⟨fun t1 t2 ht => ?_, fun t h => ?_, fun t h => ?_, by decide⟩
  · unfold ptp.TaiOffset
    by_cases h1 : t1 < ptp.epoch1972
    · rw [if_pos h1]
      by_cases h2 : t2 < ptp.epoch1972
      · rw [if_pos h2]
      · rw [if_neg h2]
        exact le_trans (show (0 : ℤ) ≤ ptp.initialOffset by decide)
          (ptp.taiOffsetLoop_ge t2 ptp.leapSeconds ptp.initialOffset hchain)
    · rw [if_neg h1, if_neg (show ¬t2 < ptp.epoch1972 by omega)]
      exact ptp.taiOffsetLoop_mono ht ptp.leapSeconds ptp.initialOffset hchain
  · rw [ptp.TaiOffset, if_pos h]
  · have hepoch : ptp.epoch1972 ≤ ptp.lastLeapDate := by decide
    have hall : ∀ e ∈ ptp.leapSeconds, e.1 ≤ t := by
      have hd : ∀ e ∈ ptp.leapSeconds, e.1 ≤ ptp.lastLeapDate := by decide
      exact fun e he => le_trans (hd e he) h
    rw [ptp.TaiOffset, if_neg (by omega),
      ptp.taiOffsetLoop_all_le t ptp.leapSeconds ptp.initialOffset hall]
    decide

/-- Witness for C8 at 2017-01-01 (after the final leap second) and at a
concrete pair of ordered instants. -/
theorem c8_witness :
    ptp.TaiOffset (ptp.unixNs 2017 1 1 0 0 0) =
      (10 + (ptp.leapSeconds.length : ℤ)) * 1000000000 :=
  c8_tai_offset_step_function.2.2.1 (ptp.unixNs 2017 1 1 0 0 0) (by decide)

/-- C2 (code bug evidence): feeding the clock monitor a 44-byte Sync
datagram whose origin-timestamp bytes are all zero STORES the zero
timestamp as the new transmitter's `LastTimestamp` — `parsePacket` never
consults `IsZero`, so a zero-valued timestamp is not discarded,
contradicting the claim. -/
theorem c2_zero_timestamp_stored :
    (ptp.parsePacket [] (List.replicate 44 0)).length = 1 ∧
    (ptp.parsePacket [] (List.replicate 44 0)).map
      (fun p => p.2.LastTimestamp.IsZero) = [true] :=
  ⟨by decide, by decide⟩

/-- C3 (code bug evidence): after registering a stream named "B" and
then one named "A", `GetAllStreams` returns them in map-iteration order
["B", "A"], not sorted ascending by name ("A" is less than "B" under
the byte-wise string order the registry's own sort comparator uses);
`GetAllStreams` performs no sort, contradicting its doc comment and the
claim. -/
theorem c3_get_all_streams_unsorted :
    (stream.GetAllStreams
        (stream.AddStreamFromSDP
          (stream.AddStreamFromSDP ⟨[]⟩ stream.msgB
            stream.DiscoveryMethod.Manual "b.sdp" 0).1
          stream.msgA stream.DiscoveryMethod.Manual "a.sdp" 0).1).map
      (fun s => s.Description.Name) = ["B", "A"] ∧
    stream.goStringLess "A" "B" = true :=
  ⟨by decide, by decide⟩

namespace stream

theorem buildConsumers_error (join : ℕ → Except String ℕ) (e : String)
    (c : ℕ → ℕ) :
    ∀ (pre : List ℕ) (k : ℕ) (post : List ℕ) (acc : List ℕ),
      (∀ i ∈ pre, join i = Except.ok (c i)) → join k = Except.error e →
      buildConsumers join (pre ++ k :: post) acc = (Except.error e, acc ++ pre.map c)
  | [], k, post, acc, _, hk => by
    simp only [List.nil_append, List.map_nil, List.append_nil]
    unfold buildConsumers
    rw [hk]
  | i :: pre', k, post, acc, hpre, hk => by
    have hi : join i = Except.ok (c i) := hpre i (List.mem_cons_self _ _)
    simp only [List.cons_append]
    unfold buildConsumers
    rw [hi]
    show buildConsumers join (pre' ++ k :: post) (acc ++ [c i]) =
      (Except.error e, acc ++ List.map c (i :: pre'))
    rw [buildConsumers_error join e c pre' k post (acc ++ [c i])
      (fun j hj => hpre j (List.mem_cons_of_mem _ hj)) hk]
    simp

end stream

/-- C4 counterexample: with two sources and a transport whose join
succeeds for the first source (handle 100) and fails for the second,
`NewRTPReceiver` returns the error but consumer 100 is still registered
with the transport — the claim that no consumer is left registered is
false. -/
theorem c4_counterexample :
    (stream.NewRTPReceiver [stream.srcA, stream.srcA] stream.joinFailSecond).1 =
      Except.error "join failed" ∧
    (stream.NewRTPReceiver [stream.srcA, stream.srcA] stream.joinFailSecond).2 = [100] ∧
    (stream.NewRTPReceiver [stream.srcA, stream.srcA] stream.joinFailSecond).2 ≠ [] :=
  ⟨rfl, rfl, by decide⟩

/-- C4 (amended): if joining the multicast group fails for source index
k after sources 0..k-1 joined successfully, receiver construction
returns the error (no receiver handle is produced), but the consumers
registered for the earlier sources remain registered with the multicast
transport — they are not removed on the error path. -/
theorem c4_join_failure_behavior :
    ∀ (sources : List stream.StreamSource) (join : ℕ → Except String ℕ)
      (k : ℕ) (e : String) (c : ℕ → ℕ),
      k < sources.length →
      (∀ i, i < k → join i = Except.ok (c i)) →
      join k = Except.error e →
      stream.NewRTPReceiver sources join =
        (Except.error e, (List.range k).map c) := by
  intro sources join k e c hk hpre hjk
  unfold stream.NewRTPReceiver
  obtain ⟨m, hm⟩ : ∃ m, sources.length = k + 1 + m := ⟨sources.length - k - 1, by omega⟩
  have hsplit : List.range sources.length =
      List.range k ++ k :: (List.range m).map (fun i => k + 1 + i) := by
    rw [hm, List.range_add, List.range_succ, List.append_assoc,
      List.singleton_append]
  rw [hsplit,
    stream.buildConsumers_error join e c (List.range k) k _ []
      (fun i hi => hpre i (List.mem_range.mp hi)) hjk]
  simp

/-- Witness for C4's amended theorem at the concrete counterexample
transport. -/
theorem c4_witness :
    stream.NewRTPReceiver [stream.srcA, stream.srcA] stream.joinFailSecond =
      (Except.error "join failed", [100]) := by
  have h := c4_join_failure_behavior [stream.srcA, stream.srcA]
    stream.joinFailSecond 1 "join failed" (fun _ => 100) (by decide)
    (fun i hi => by
      have h0 : i = 0 := by omega
      rw [h0]
      rfl)
    (by rfl)
  rw [h]
  rfl

namespace stream

theorem cleanup_mem (now : ℤ) :
    ∀ (l : List (String × Stream)) (p : String × Stream),
      p ∈ cleanupStaleStreams now l ↔
        p ∈ l ∧ ¬(p.2.DiscoveryMethod = DiscoveryMethod.SAP ∧
          IsStale p.2 now sapTimeout = true)
  | [], p => by simp [cleanupStaleStreams]
  | q :: rest, p => by
    unfold cleanupStaleStreams
    by_cases hq : q.2.DiscoveryMethod = DiscoveryMethod.SAP ∧
        IsStale q.2 now sapTimeout = true
    · rw [if_pos hq, cleanup_mem now rest p]
      constructor
      · rintro ⟨hm, hn⟩
        exact ⟨List.mem_cons_of_mem _ hm, hn⟩
      · rintro ⟨hm, hn⟩
        rcases List.mem_cons.mp hm with he | hm'
        · exact absurd (he ▸ hq) hn
        · exact ⟨hm', hn⟩
    · rw [if_neg hq]
      constructor
      · intro h
        rcases List.mem_cons.mp h with he | h'
        · exact ⟨he ▸ List.mem_cons_self q rest, he ▸ hq⟩
        · obtain ⟨hm, hn⟩ := (cleanup_mem now rest p).mp h'
          exact ⟨List.mem_cons_of_mem _ hm, hn⟩
      · rintro ⟨hm, hn⟩
        rcases List.mem_cons.mp hm with he | hm'
        · exact he ▸ List.mem_cons_self q _
        · exact List.mem_cons_of_mem _ ((cleanup_mem now rest p).mpr ⟨hm', hn⟩)

end stream

/-- C5: one execution of the eviction sweep keeps exactly the entries
that are NOT (announcement-discovered and stale); equivalently it
removes exactly the SAP-discovered streams whose age exceeds the stale
timeout, and a manually loaded or mDNS-discovered stream survives the
sweep regardless of its age. -/
theorem c5_eviction_sweep :
    (∀ (m : stream.Manager) (now : ℤ) (p : String × stream.Stream),
      p ∈ (m.cleanupStaleStreams now).streams ↔
        p ∈ m.streams ∧
          ¬(p.2.DiscoveryMethod = stream.DiscoveryMethod.SAP ∧
            stream.IsStale p.2 now stream.sapTimeout = true)) ∧
    (∀ (m : stream.Manager) (now : ℤ) (p : String × stream.Stream),
      p ∈ m.streams → p.2.DiscoveryMethod ≠ stream.DiscoveryMethod.SAP →
      p ∈ (m.cleanupStaleStreams now).streams) ∧
    (∀ (m : stream.Manager) (now : ℤ) (p : String × stream.Stream),
      p.2.DiscoveryMethod = stream.DiscoveryMethod.SAP →
      stream.IsStale p.2 now stream.sapTimeout = true →
      p ∉ (m.cleanupStaleStreams now).streams) := by
  refine ⟨?_, ?_, ?_⟩
  · intro m now p
    exact stream.cleanup_mem now m.streams p
  · intro m now p hm hnm
    exact (stream.cleanup_mem now m.streams p).mpr ⟨hm, fun hand => hnm hand.1⟩
  · intro m now p hsap hstale hmem
    exact ((stream.cleanup_mem now m.streams p).mp hmem).2 ⟨hsap, hstale⟩

/-- Witness for C5: at an instant far past the timeout, the stale
manually loaded stream survives the sweep and the stale SAP stream is
removed. -/
theorem c5_witness :
    ("id-man", stream.streamManual) ∈
      (stream.managerC5.cleanupStaleStreams 1300000000000).streams ∧
    ("id-sap", stream.streamSAP) ∉
      (stream.managerC5.cleanupStaleStreams 1300000000000).streams :=
  ⟨c5_eviction_sweep.2.1 stream.managerC5 1300000000000 _ (by decide) (by decide),
   c5_eviction_sweep.2.2 stream.managerC5 1300000000000 _ (by decide) (by decide)⟩

namespace stream

theorem getD_zero_eq_getElem (l : List ℕ) (k : ℕ) (h : k < l.length) :
    l.getD k 0 = l[k] := by
  rw [List.getD_eq_getElem?_getD, List.getElem?_eq_getElem h]
  rfl

theorem sample24_eq (payload : List ℕ) (k : ℕ) (hk : k + 3 ≤ payload.length)
    (hb : ∀ b ∈ payload, b < 256) :
    sample24 payload k = some (specSample payload k) := by
  have h0 : k < payload.length := by omega
  have h1 : k + 1 < payload.length := by omega
  have h2 : k + 2 < payload.length := by omega
  have hb0 : payload[k] < 256 := hb _ (List.getElem_mem _)
  have hb1 : payload[k + 1] < 256 := hb _ (List.getElem_mem _)
  have hb2 : payload[k + 2] < 256 := hb _ (List.getElem_mem _)
  unfold sample24
  rw [List.getElem?_eq_getElem h0, List.getElem?_eq_getElem h1,
    List.getElem?_eq_getElem h2]
  show some (toInt32 (payload[k] <<< 24 ||| payload[k + 1] <<< 16 |||
    payload[k + 2] <<< 8)) = some (specSample payload k)
  unfold specSample
  rw [getD_zero_eq_getElem _ _ h0, getD_zero_eq_getElem _ _ h1,
    getD_zero_eq_getElem _ _ h2]
  simp only [Nat.shiftLeft_eq]
  rw [lor_add_of_dvd_of_lt ⟨payload[k], by ring⟩
        (show payload[k + 1] * 2 ^ 16 < 2 ^ 24 by nlinarith),
      lor_add_of_dvd_of_lt ⟨payload[k] * 2 ^ 8 + payload[k + 1], by ring⟩
        (show payload[k + 2] * 2 ^ 8 < 2 ^ 16 by nlinarith)]

theorem extractFrame_spec (payload : List ℕ) (hb : ∀ b ∈ payload, b < 256) :
    ∀ (C i : ℕ), i + 3 * C ≤ payload.length →
      extractFrame payload i C =
        some ((List.range C).map (fun ch => specSample payload (i + 3 * ch)),
          i + 3 * C)
  | 0, i, _ => by simp [extractFrame]
  | C + 1, i, h => by
    have e1 : sample24 payload i = some (specSample payload i) :=
      sample24_eq payload i (by omega) hb
    have e2 := extractFrame_spec payload hb C (i + 3) (by omega)
    show (match sample24 payload i with
      | some v =>
        match extractFrame payload (i + 3) C with
        | some (f, i') => some (v :: f, i')
        | none => none
      | none => none) = _
    rw [e1, e2]
    show some (specSample payload i ::
        (List.range C).map (fun ch => specSample payload (i + 3 + 3 * ch)),
        i + 3 + 3 * C) = _
    rw [List.range_succ_eq_map, List.map_cons, List.map_map]
    simp only [Option.some.injEq, Prod.mk.injEq, List.cons.injEq]
    refine ⟨⟨?_, ?_⟩, ?_⟩
    · simp
    · apply List.map_congr_left
      intro ch _
      simp only [Function.comp_apply]
      rw [show i + 3 + 3 * ch = i + 3 * (ch + 1) by omega]
    · omega

theorem extractFrames_spec (payload : List ℕ) (hb : ∀ b ∈ payload, b < 256)
    (C : ℕ) :
    ∀ (n i : ℕ), i + n * (3 * C) ≤ payload.length →
      extractFrames payload C n i =
        some ((List.range n).map fun j =>
          (List.range C).map fun ch => specSample payload (i + 3 * (j * C + ch)))
  | 0, _, _ => by simp [extractFrames]
  | n + 1, i, h => by
    have h' : i + (n * (3 * C) + 3 * C) ≤ payload.length := by
      rw [Nat.succ_mul] at h
      omega
    have e1 := extractFrame_spec payload hb C i (by omega)
    have e2 := extractFrames_spec payload hb C n (i + 3 * C) (by omega)
    show (match extractFrame payload i C with
      | some (f, i') =>
        match extractFrames payload C n i' with
        | some fs => some (f :: fs)
        | none => none
      | none => none) = _
    rw [e1]
    show (match extractFrames payload C n (i + 3 * C) with
      | some fs => some ((List.range C).map
          (fun ch => specSample payload (i + 3 * ch)) :: fs)
      | none => none) = _
    rw [e2]
    show some ((List.range C).map (fun ch => specSample payload (i + 3 * ch)) ::
        (List.range n).map (fun j => (List.range C).map fun ch =>
          specSample payload (i + 3 * C + 3 * (j * C + ch)))) = _
    rw [List.range_succ_eq_map, List.map_cons, List.map_map]
    simp only [Option.some.injEq, List.cons.injEq]
    refine ⟨?_, ?_⟩
    · apply List.map_congr_left
      intro ch _
      rw [show i + 3 * ch = i + 3 * (0 * C + ch) by ring]
    · apply List.map_congr_left
      intro j _
      simp only [Function.comp_apply, Nat.succ_eq_add_one]
      apply List.map_congr_left
      intro ch _
      rw [show i + 3 * C + 3 * (j * C + ch) = i + 3 * ((j + 1) * C + ch) by ring]

/-- For a PCM24 description with at least one channel and byte-valued
payload, `ExtractSamples` succeeds and returns exactly the
independently specified frames. -/
theorem ExtractSamples_ok (desc : StreamDescription) (payload : List ℕ)
    (hct : desc.ContentType = ContentTypePCM24) (hcc : 1 ≤ desc.ChannelCount)
    (hb : ∀ b ∈ payload, b < 256) :
    ExtractSamples desc payload =
      ExtractResult.ok (specFrames payload desc.ChannelCount) := by
  unfold ExtractSamples
  rw [if_pos hct]
  show (if 3 * desc.ChannelCount = 0 then ExtractResult.goPanic
    else match extractFrames payload desc.ChannelCount
        (payload.length / (3 * desc.ChannelCount)) 0 with
      | some frames => ExtractResult.ok frames
      | none => ExtractResult.goPanic) = _
  rw [if_neg (by omega : ¬3 * desc.ChannelCount = 0)]
  have hbound : 0 + (payload.length / (3 * desc.ChannelCount)) *
      (3 * desc.ChannelCount) ≤ payload.length := by
    rw [Nat.zero_add]
    exact Nat.div_mul_le_self _ _
  rw [extractFrames_spec payload hb desc.ChannelCount _ 0 hbound]
  show ExtractResult.ok _ = _
  unfold specFrames
  simp only [Nat.zero_add]

end stream

/-- C6: For PCM24 content and C ≥ 1 channels, `ExtractSamples` decodes
`len(payload) / (3*C)` frames of C samples each, each sample being the
big-endian 3-byte group at offset `3*(j*C+ch)`, silently dropping any
trailing remainder without error; in particular a 6-byte payload with
C = 2 yields exactly one frame of two samples, and a 5-byte payload
yields zero frames and no error. -/
theorem c6_extract_samples_pcm24 :
    (∀ (desc : stream.StreamDescription) (payload : List ℕ),
      desc.ContentType = stream.ContentTypePCM24 → 1 ≤ desc.ChannelCount →
      (∀ b ∈ payload, b < 256) →
      stream.ExtractSamples desc payload =
        stream.ExtractResult.ok (stream.specFrames payload desc.ChannelCount) ∧
      (stream.specFrames payload desc.ChannelCount).length =
        payload.length / (3 * desc.ChannelCount) ∧
      (∀ f ∈ stream.specFrames payload desc.ChannelCount,
        f.length = desc.ChannelCount)) ∧
    (∀ (desc : stream.StreamDescription) (payload : List ℕ),
      desc.ContentType = stream.ContentTypePCM24 → desc.ChannelCount = 2 →
      (∀ b ∈ payload, b < 256) → payload.length = 6 →
      stream.ExtractSamples desc payload = stream.ExtractResult.ok
        [[stream.specSample payload 0, stream.specSample payload 3]]) ∧
    (∀ (desc : stream.StreamDescription) (payload : List ℕ),
      desc.ContentType = stream.ContentTypePCM24 → desc.ChannelCount = 2 →
      (∀ b ∈ payload, b < 256) → payload.length = 5 →
      stream.ExtractSamples desc payload = stream.ExtractResult.ok []) := by
  refine ⟨?_, ?_, ?_⟩
  · intro desc payload hct hcc hb
    refine ⟨stream.ExtractSamples_ok desc payload hct hcc hb, by simp [stream.specFrames], ?_⟩
    intro f hf
    obtain ⟨j, -, rfl⟩ := List.mem_map.mp hf
    simp
  · intro desc payload hct hcc hb hlen
    rw [stream.ExtractSamples_ok desc payload hct (by omega) hb]
    congr 1
    unfold stream.specFrames
    rw [hcc, hlen]
    norm_num
    rw [show List.range 1 = [0] from rfl, show List.range 2 = [0, 1] from rfl]
    norm_num
  · intro desc payload hct hcc hb hlen
    rw [stream.ExtractSamples_ok desc payload hct (by omega) hb]
    congr 1
    unfold stream.specFrames
    rw [hcc, hlen]
    norm_num

/-- Witness for C6: a concrete 6-byte payload for a 2-channel PCM24
stream decodes to one frame of two samples. -/
theorem c6_witness :
    stream.ExtractSamples stream.desc6 [0, 0, 1, 0, 0, 2] =
      stream.ExtractResult.ok [[256, 512]] := by
  have h := (c6_extract_samples_pcm24.1 stream.desc6 [0, 0, 1, 0, 0, 2]
    rfl (by decide) (by decide)).1
  rw [h]
  decide

/-- C10: the SDP parser can produce a description with ContentType PCM24
and ChannelCount 0 (malformed rtpmap channel field defaults to 0); for
such a description `ExtractSamples` divides by zero — a Go runtime
panic, not the typed unsupported-content-type error; under the unstated
precondition ChannelCount ≥ 1 the division is well-defined and every
payload index accessed is in bounds (extraction returns frames, never
panics). -/
theorem c10_channel_count_precondition :
    ((stream.ParseSDP stream.msgNoChannel).1.ContentType =
        stream.ContentTypePCM24 ∧
      (stream.ParseSDP stream.msgNoChannel).1.ChannelCount = 0) ∧
    (∀ (desc : stream.StreamDescription) (payload : List ℕ),
      desc.ContentType = stream.ContentTypePCM24 → desc.ChannelCount = 0 →
      stream.ExtractSamples desc payload = stream.ExtractResult.goPanic) ∧
    (∀ (desc : stream.StreamDescription) (payload : List ℕ),
      desc.ContentType = stream.ContentTypePCM24 → 1 ≤ desc.ChannelCount →
      (∀ b ∈ payload, b < 256) →
      ∃ frames, stream.ExtractSamples desc payload =
        stream.ExtractResult.ok frames) := by
  refine ⟨⟨by decide, by decide⟩, ?_, ?_⟩
  · intro desc payload hct hcc
    unfold stream.ExtractSamples
    rw [if_pos hct]
    show (if 3 * desc.ChannelCount = 0 then stream.ExtractResult.goPanic
      else match stream.extractFrames payload desc.ChannelCount
          (payload.length / (3 * desc.ChannelCount)) 0 with
        | some frames => stream.ExtractResult.ok frames
        | none => stream.ExtractResult.goPanic) = _
    rw [if_pos (by omega : 3 * desc.ChannelCount = 0)]
  · intro desc payload hct hcc hb
    exact ⟨stream.specFrames payload desc.ChannelCount,
      stream.ExtractSamples_ok desc payload hct hcc hb⟩

/-- Witness for C10: a zero-channel PCM24 description sends a concrete
payload into the division-by-zero panic. -/
theorem c10_witness :
    stream.ExtractSamples stream.desc0 [1, 2, 3] =
      stream.ExtractResult.goPanic :=
  c10_channel_count_precondition.2.1 stream.desc0 [1, 2, 3] rfl rfl

namespace stream

theorem mapSet_find? (k : String) (v : Stream) :
    ∀ l : List (String × Stream),
      ((mapSet l k v).find? fun p => p.1 == k) = some (k, v)
  | [] => by simp [mapSet]
  | q :: rest => by
    unfold mapSet
    by_cases hq : (q.1 == k) = true
    · rw [if_pos (by simp [List.any_cons, hq])]
      rw [List.map_cons, if_pos hq]
      exact List.find?_cons_of_pos _ (by simp)
    · have hq' : (q.1 == k) = false := by revert hq; cases q.1 == k <;> simp
      by_cases hr : (rest.any fun p => p.1 == k) = true
      · rw [if_pos (by simp [List.any_cons, hr])]
        rw [List.map_cons, if_neg (by simp [hq']), List.find?_cons_of_neg _ (by simp [hq'])]
        have hrec := mapSet_find? k v rest
        rw [mapSet, if_pos hr] at hrec
        exact hrec
      · have hr' : (rest.any fun p => p.1 == k) = false := by
          revert hr; cases rest.any fun p => p.1 == k <;> simp
        rw [if_neg (by simp [List.any_cons, hq', hr'])]
        rw [List.cons_append, List.find?_cons_of_neg _ (by simp [hq'])]
        have hrec := mapSet_find? k v rest
        rw [mapSet, if_neg (by simp [hr'])] at hrec
        exact hrec

theorem mapSet_any (k : String) (v : Stream) (l : List (String × Stream)) :
    ((mapSet l k v).any fun p => p.1 == k) = true := by
  have h := mapSet_find? k v l
  have hmem := List.mem_of_find?_eq_some h
  exact List.any_eq_true.mpr ⟨(k, v), hmem, by simp⟩

theorem mapSet_length_of_mem (k : String) (v : Stream)
    (l : List (String × Stream)) (h : (l.any fun p => p.1 == k) = true) :
    (mapSet l k v).length = l.length := by
  rw [mapSet, if_pos h, List.length_map]

theorem mapSet_nodup (k : String) (v : Stream) (l : List (String × Stream))
    (h : (l.map Prod.fst).Nodup) : ((mapSet l k v).map Prod.fst).Nodup := by
  unfold mapSet
  split
  · have hkeys : ((l.map fun p => if p.1 == k then (k, v) else p).map Prod.fst) =
        l.map Prod.fst := by
      rw [List.map_map]
      apply List.map_congr_left
      intro p _
      by_cases hpk : (p.1 == k) = true
      · simp only [Function.comp_apply, if_pos hpk]
        exact (eq_of_beq hpk).symm
      · simp only [Function.comp_apply, if_neg hpk]
    rw [hkeys]
    exact h
  · next hany =>
    rw [List.map_append, List.nodup_append]
    refine ⟨h, by simp, ?_⟩
    intro a ha hmem
    obtain ⟨p, hp, rfl⟩ := List.mem_map.mp ha
    have hk : p.1 = k := by simpa using hmem
    exact hany (List.any_eq_true.mpr ⟨p, hp, by simp [hk]⟩)

theorem mapSet_filter_count (k : String) (v : Stream) :
    ∀ l : List (String × Stream), (l.map Prod.fst).Nodup →
      ((mapSet l k v).filter fun p => p.1 == k).length = 1
  | [], _ => by simp [mapSet]
  | q :: rest, h => by
    have hnd : (rest.map Prod.fst).Nodup := by
      rw [List.map_cons, List.nodup_cons] at h
      exact h.2
    have hq_not : q.1 ∉ rest.map Prod.fst := by
      rw [List.map_cons, List.nodup_cons] at h
      exact h.1
    unfold mapSet
    by_cases hq : (q.1 == k) = true
    · rw [if_pos (by simp [List.any_cons, hq])]
      rw [List.map_cons, if_pos hq]
      have hrk : ∀ p ∈ rest, (p.1 == k) = false := by
        intro p hp
        have hqk : q.1 = k := eq_of_beq hq
        have hne : p.1 ≠ k := fun hec =>
          hq_not (hqk ▸ hec ▸ List.mem_map_of_mem Prod.fst hp)
        simp [hne]
      have hmap : (rest.map fun p => if p.1 == k then (k, v) else p) = rest := by
        rw [show (rest.map fun p => if p.1 == k then (k, v) else p) =
            rest.map id from List.map_congr_left
              (fun p hp => by rw [if_neg (by simp [hrk p hp])]; rfl),
          List.map_id]
      rw [hmap, List.filter_cons_of_pos (by simp),
        List.filter_eq_nil_iff.mpr (fun p hp => by simp [hrk p hp])]
      rfl
    · have hq' : (q.1 == k) = false := by revert hq; cases q.1 == k <;> simp
      by_cases hr : (rest.any fun p => p.1 == k) = true
      · rw [if_pos (by simp [List.any_cons, hr])]
        rw [List.map_cons, if_neg (by simp [hq']),
          List.filter_cons_of_neg (by simp [hq'])]
        have hrec := mapSet_filter_count k v rest hnd
        rw [mapSet, if_pos hr] at hrec
        exact hrec
      · have hr' : (rest.any fun p => p.1 == k) = false := by
          revert hr; cases rest.any fun p => p.1 == k <;> simp
        rw [if_neg (by simp [List.any_cons, hq', hr'])]
        rw [List.cons_append, List.filter_cons_of_neg (by simp [hq'])]
        have hrec := mapSet_filter_count k v rest hnd
        rw [mapSet, if_neg (by simp [hr'])] at hrec
        exact hrec

end stream

/-- C1: starting from any registry whose keys are unique, registering
two descriptors whose origin tuples agree on the five identity fields
(origin username, origin session id, connection network type,
connection address type, origin address) — their media sections and
transport addresses arbitrary and possibly different — leaves exactly
one Stream under that identity: lookup yields the stream of the second
call (which carries the second descriptor's description), and the
second call did not grow the registry. -/
theorem c1_identity_unique_replacement :
    ∀ m : stream.Manager, (m.streams.map Prod.fst).Nodup →
    ∀ (msg1 msg2 : stream.Message) (dm1 dm2 : stream.DiscoveryMethod)
      (s1 s2 : String) (t1 t2 : ℤ),
      msg1.Origin.Username = msg2.Origin.Username →
      msg1.Origin.SessionID = msg2.Origin.SessionID →
      msg1.Connection.NetworkType = msg2.Connection.NetworkType →
      msg1.Connection.AddressType = msg2.Connection.AddressType →
      msg1.Origin.Address = msg2.Origin.Address →
      (((stream.AddStreamFromSDP (stream.AddStreamFromSDP m msg1 dm1 s1 t1).1
          msg2 dm2 s2 t2).1.streams.filter
          fun p => p.1 == stream.uniqueID msg2).length = 1 ∧
      stream.GetStream
          (stream.AddStreamFromSDP (stream.AddStreamFromSDP m msg1 dm1 s1 t1).1
            msg2 dm2 s2 t2).1 (stream.uniqueID msg2) =
        some (stream.AddStreamFromSDP (stream.AddStreamFromSDP m msg1 dm1 s1 t1).1
            msg2 dm2 s2 t2).2 ∧
      (stream.AddStreamFromSDP (stream.AddStreamFromSDP m msg1 dm1 s1 t1).1
          msg2 dm2 s2 t2).2.Description = (stream.ParseSDP msg2).1 ∧
      (stream.AddStreamFromSDP (stream.AddStreamFromSDP m msg1 dm1 s1 t1).1
          msg2 dm2 s2 t2).1.streams.length =
        (stream.AddStreamFromSDP m msg1 dm1 s1 t1).1.streams.length) := by
  intro m hnd msg1 msg2 dm1 dm2 s1 s2 t1 t2 h1 h2 h3 h4 h5
  have huid : stream.uniqueID msg1 = stream.uniqueID msg2 := by
    unfold stream.uniqueID
    rw [h1, h2, h3, h4, h5]
  have hst1 : (stream.AddStreamFromSDP m msg1 dm1 s1 t1).1.streams =
      stream.mapSet m.streams (stream.uniqueID msg1)
        (stream.AddStreamFromSDP m msg1 dm1 s1 t1).2 := rfl
  have hst2 : (stream.AddStreamFromSDP (stream.AddStreamFromSDP m msg1 dm1 s1 t1).1
      msg2 dm2 s2 t2).1.streams =
      stream.mapSet (stream.AddStreamFromSDP m msg1 dm1 s1 t1).1.streams
        (stream.uniqueID msg2)
        (stream.AddStreamFromSDP (stream.AddStreamFromSDP m msg1 dm1 s1 t1).1
          msg2 dm2 s2 t2).2 := rfl
  have hnd1 : ((stream.AddStreamFromSDP m msg1 dm1 s1 t1).1.streams.map Prod.fst).Nodup := by
    rw [hst1]
    exact stream.mapSet_nodup _ _ _ hnd
  have hany : ((stream.AddStreamFromSDP m msg1 dm1 s1 t1).1.streams.any
      fun p => p.1 == stream.uniqueID msg2) = true := by
    rw [hst1, ← huid]
    exact stream.mapSet_any _ _ _
  refine ⟨?_, ?_, rfl, ?_⟩
  · rw [hst2]
    exact stream.mapSet_filter_count _ _ _ hnd1
  · show ((stream.AddStreamFromSDP (stream.AddStreamFromSDP m msg1 dm1 s1 t1).1
      msg2 dm2 s2 t2).1.streams.find? fun p => p.1 == stream.uniqueID msg2).map
        Prod.snd = _
    rw [hst2, stream.mapSet_find?]
    rfl
  · rw [hst2]
    exact stream.mapSet_length_of_mem _ _ _ hany

/-- Witness for C1: two concrete announcements of the same session
(identical origin tuple, different transport legs) registered into an
empty registry. -/
theorem c1_witness :
    ((stream.AddStreamFromSDP (stream.AddStreamFromSDP ⟨[]⟩ stream.msgPrimary
        stream.DiscoveryMethod.SAP "eth0" 5).1
        stream.msgSecondary stream.DiscoveryMethod.SAP "eth1" 9).1.streams.filter
        fun p => p.1 == stream.uniqueID stream.msgSecondary).length = 1 ∧
    stream.GetStream
        (stream.AddStreamFromSDP (stream.AddStreamFromSDP ⟨[]⟩ stream.msgPrimary
          stream.DiscoveryMethod.SAP "eth0" 5).1
          stream.msgSecondary stream.DiscoveryMethod.SAP "eth1" 9).1
        (stream.uniqueID stream.msgSecondary) =
      some (stream.AddStreamFromSDP (stream.AddStreamFromSDP ⟨[]⟩ stream.msgPrimary
          stream.DiscoveryMethod.SAP "eth0" 5).1
          stream.msgSecondary stream.DiscoveryMethod.SAP "eth1" 9).2 ∧
    (stream.AddStreamFromSDP (stream.AddStreamFromSDP ⟨[]⟩ stream.msgPrimary
        stream.DiscoveryMethod.SAP "eth0" 5).1
        stream.msgSecondary stream.DiscoveryMethod.SAP "eth1" 9).2.Description =
      (stream.ParseSDP stream.msgSecondary).1 ∧
    (stream.AddStreamFromSDP (stream.AddStreamFromSDP ⟨[]⟩ stream.msgPrimary
        stream.DiscoveryMethod.SAP "eth0" 5).1
        stream.msgSecondary stream.DiscoveryMethod.SAP "eth1" 9).1.streams.length =
      (stream.AddStreamFromSDP ⟨[]⟩ stream.msgPrimary
        stream.DiscoveryMethod.SAP "eth0" 5).1.streams.length :=
  c1_identity_unique_replacement ⟨[]⟩ (by simp) stream.msgPrimary
    stream.msgSecondary stream.DiscoveryMethod.SAP stream.DiscoveryMethod.SAP
    "eth0" "eth1" 5 9 rfl rfl rfl rfl rfl

end RtpMonitor
